import Mathlib

/-!
Shallow embedding of the jobly model layer: the partial-update SQL builder
(`helpers/sql.js`), the dynamic filter assemblers `Company.findAll` /
`Job.findAll`, and the row-level operations `Company.get`, `Company.remove`,
`Job.remove`, `Job.update` (`models/company.js`, `models/job.js`).

JavaScript values are modelled by `JSVal`; thrown errors by `JSErr`
(`ExpressError(msg, status)`, `NotFoundError`, `BadRequestError`, and the
strict-mode `ReferenceError` raised on reading an undeclared identifier).
Fallible operations return `Except JSErr _`.  SQL strings are assembled
character-for-character as the template literals in the source do, including
their exact interior whitespace.
-/

set_option autoImplicit false
set_option maxRecDepth 4096

deriving instance DecidableEq for Except

namespace Jobly

/-- A JavaScript value, restricted to the shapes the model layer handles. -/
inductive JSVal where
  | str (s : String)
  | num (n : Int)
  | bool (b : Bool)
  | undefined
  | null
deriving DecidableEq, Repr

/-- JavaScript truthiness: `""`, `0`, `false`, `undefined`, `null` are falsy. -/
def jsTruthy : JSVal → Bool
  | .str s => !(s == "")
  | .num n => !(n == 0)
  | .bool b => b
  | .undefined => false
  | .null => false

/-- JavaScript `ToString`, as used by template-literal interpolation. -/
def jsToString : JSVal → String
  | .str s => s
  | .num n => toString n
  | .bool b => if b then "true" else "false"
  | .undefined => "undefined"
  | .null => "null"

/-- JavaScript `ToNumber` for the value shapes of `JSVal`; `none` is NaN.
Strings are parsed as (optionally signed) decimal integers, the only numeric
strings this code path ever sees. -/
def toNumber : JSVal → Option Int
  | .num n => some n
  | .bool b => some (if b then 1 else 0)
  | .null => some 0
  | .undefined => none
  | .str s => if s == "" then some 0 else s.toInt?

/-- JavaScript `>`: lexicographic when both operands are strings, otherwise
numeric after `ToNumber`, with any NaN operand making the comparison false. -/
def jsGt : JSVal → JSVal → Bool
  | .str a, .str b => decide (b < a)
  | a, b =>
      match toNumber a, toNumber b with
      | some x, some y => decide (y < x)
      | _, _ => false

/-- Property read `o[k]` on an object modelled as an ordered key-value list;
a missing key reads as `undefined`. -/
def getProp (o : List (String × JSVal)) (k : String) : JSVal :=
  match o.find? (fun p => p.1 == k) with
  | some p => p.2
  | none => .undefined

/-- A thrown model-layer error. -/
inductive JSErr where
  | notFound (msg : String)
  | badRequest (msg : String)
  | express (msg : String) (status : Nat)
  | refError (name : String)
deriving DecidableEq, Repr

/-! ### helpers/sql.js : sqlForPartialUpdate -/

/-- `jsToSql[colName]`: property read on the alias table (string values). -/
def aliasLookup (jsToSql : List (String × String)) (k : String) : Option String :=
  (jsToSql.find? (fun p => p.1 == k)).map Prod.snd

/-- `jsToSql[colName] || colName`: a falsy alias — absent, or the empty
string — falls back to the field name itself. -/
def resolveCol (jsToSql : List (String × String)) (colName : String) : String :=
  match aliasLookup jsToSql colName with
  | some a => if a == "" then colName else a
  | none => colName

/-- `keys.map((colName, idx) => `"${jsToSql[colName] || colName}"=$${idx + 1}`)`,
with the running index made explicit. -/
def colFragments (jsToSql : List (String × String)) : List String → Nat → List String
  | [], _ => []
  | k :: rest, idx =>
      ("\"" ++ resolveCol jsToSql k ++ "\"=$" ++ Nat.repr (idx + 1))
        :: colFragments jsToSql rest (idx + 1)

/-- `cols.join(", ")`. -/
def joinComma : List String → String
  | [] => ""
  | [c] => c
  | c :: rest => c ++ ", " ++ joinComma rest

/-- Result of `sqlForPartialUpdate`: the individual assignment fragments, the
joined `setCols` string, and the bind values. -/
structure UpdateResult where
  cols : List String
  setCols : String
  values : List JSVal
deriving DecidableEq, Repr

/-- `sqlForPartialUpdate(dataToUpdate, jsToSql)` from helpers/sql.js. -/
def sqlForPartialUpdate (dataToUpdate : List (String × JSVal))
    (jsToSql : List (String × String)) : Except JSErr UpdateResult :=
  let keys := dataToUpdate.map Prod.fst
  if keys.length == 0 then .error (.badRequest "No data")
  else
    let cols := colFragments jsToSql keys 0
    .ok ⟨cols, joinComma cols, dataToUpdate.map Prod.snd⟩

/-! ### Filter assemblers -/

/-- An assembled parameterized query: SQL text plus ordered bind values. -/
structure Query where
  sql : String
  values : List JSVal
deriving DecidableEq, Repr

def companyValidFilters : List String := ["name", "minEmployees", "maxEmployees"]

/-- The base SELECT of `Company.findAll`, exactly as in the template literal. -/
def companyBaseSelect : String :=
  "SELECT handle,\n                      name,\n                      description,\n                      num_employees AS \"numEmployees\",\n                      logo_url AS \"logoUrl\"\n               FROM companies"

/-- The cumulative builder states of `Company.findAll`: the `(search, values)`
pair after the base SELECT, after each of the three conditional appends, and
after the final `ORDER BY` append. -/
def companyStates (options : List (String × JSVal)) : List Query :=
  let name := getProp options "name"
  let minEmployees := getProp options "minEmployees"
  let maxEmployees := getProp options "maxEmployees"
  let s0 : Query := ⟨companyBaseSelect, []⟩
  let s1 : Query :=
    if jsTruthy name then
      ⟨s0.sql ++ "WHERE name ILIKE $1",
       s0.values ++ [.str ("%" ++ jsToString name ++ "%")]⟩
    else s0
  let s2 : Query :=
    if jsTruthy minEmployees then
      ⟨(if s1.values.length == 0 then s1.sql ++ "WHERE num_employees >= $1"
        else s1.sql ++ "AND num_employees >= $" ++ Nat.repr (s1.values.length + 1)),
       s1.values ++ [minEmployees]⟩
    else s1
  let s3 : Query :=
    if jsTruthy maxEmployees then
      ⟨(if s2.values.length == 0 then s2.sql ++ "WHERE num_employees <= $1"
        else s2.sql ++ "AND num_employees >=$" ++ Nat.repr (s2.values.length + 1)),
       s2.values ++ [maxEmployees]⟩
    else s2
  let s4 : Query := ⟨s3.sql ++ "ORDER BY name", s3.values⟩
  [s0, s1, s2, s3, s4]

/-- `Company.findAll(options)`, up to the point where the assembled statement
is handed to `db.query`: validation, then the incremental SQL assembly. -/
def companyFindAllQuery (options : List (String × JSVal)) : Except JSErr Query :=
  let invalidFilters :=
    (options.map Prod.fst).filter (fun f => !(companyValidFilters.contains f))
  if invalidFilters.length > 0 then .error (.express "Invalid filter option" 400)
  else if jsGt (getProp options "minEmployees") (getProp options "maxEmployees") then
    .error (.express "Employee filter conflict" 400)
  else .ok ((companyStates options).getLastD ⟨"", []⟩)

/-- The queries `Company.findAll` submits to the store: none when validation
throws, exactly the assembled one otherwise. -/
def companyFindAllExecuted (options : List (String × JSVal)) : List Query :=
  match companyFindAllQuery options with
  | .error _ => []
  | .ok q => [q]

def jobValidFilters : List String := ["title", "minSalary", "hasEquity"]

/-- The base SELECT of `Job.findAll`, exactly as in the template literal. -/
def jobBaseSelect : String :=
  "SELECT title,\n                      salary,\n                      equity,\n                      company_handle AS \"companyHandle\"\n               FROM jobs"

/-- The cumulative builder states of `Job.findAll`. -/
def jobStates (options : List (String × JSVal)) : List Query :=
  let title := getProp options "title"
  let minSalary := getProp options "minSalary"
  let hasEquity := getProp options "hasEquity"
  let s0 : Query := ⟨jobBaseSelect, []⟩
  let s1 : Query :=
    if jsTruthy title then
      ⟨s0.sql ++ "WHERE title ILIKE $1",
       s0.values ++ [.str ("%" ++ jsToString title ++ "%")]⟩
    else s0
  let s2 : Query :=
    if jsTruthy minSalary then
      ⟨s1.sql ++ (if s1.values.length == 0
          then " WHERE salary >= $" ++ Nat.repr (s1.values.length + 1)
          else " AND salary >= $" ++ Nat.repr (s1.values.length + 1)),
       s1.values ++ [minSalary]⟩
    else s1
  let s3 : Query :=
    if !(hasEquity == .undefined) then
      let operator := if jsTruthy hasEquity then ">" else "="
      ⟨s2.sql ++ (if s2.values.length == 0
          then " WHERE equity " ++ operator ++ " 0"
          else " AND equity " ++ operator ++ " 0"),
       s2.values⟩
    else s2
  let s4 : Query := ⟨s3.sql ++ "ORDER BY title", s3.values⟩
  [s0, s1, s2, s3, s4]

/-- `Job.findAll(options)`, up to the `db.query` call. -/
def jobFindAllQuery (options : List (String × JSVal)) : Except JSErr Query :=
  let invalidFilters :=
    (options.map Prod.fst).filter (fun f => !(jobValidFilters.contains f))
  if invalidFilters.length > 0 then .error (.express "Invalid filter option" 400)
  else .ok ((jobStates options).getLastD ⟨"", []⟩)

/-- The queries `Job.findAll` submits to the store. -/
def jobFindAllExecuted (options : List (String × JSVal)) : List Query :=
  match jobFindAllQuery options with
  | .error _ => []
  | .ok q => [q]

/-! ### The store and the row-level operations -/

/-- A row of the `companies` table. -/
structure CompanyRow where
  handle : String
  name : String
  description : String
  numEmployees : JSVal
  logoUrl : JSVal
deriving DecidableEq, Repr

/-- A row of the `jobs` table. -/
structure JobRow where
  id : Int
  title : String
  salary : JSVal
  equity : JSVal
  companyHandle : String
deriving DecidableEq, Repr

/-- The relational store backing both repositories. -/
structure DB where
  companies : List CompanyRow
  jobs : List JobRow
deriving DecidableEq, Repr

/-- The nested `jobs` object built by `Company.get`'s row mapper. -/
structure JobsObj where
  id : Int
  title : String
  salary : JSVal
  equity : JSVal
deriving DecidableEq, Repr

/-- One element of the array `Company.get` returns (the mapper drops the
handle and keys the company columns as `num_employees` / `logo_url`). -/
structure CompanyGetRow where
  name : String
  description : String
  num_employees : JSVal
  logo_url : JSVal
  jobs : JobsObj
deriving DecidableEq, Repr

/-- The rows of `SELECT ... FROM companies AS c JOIN jobs AS j ON
c.handle = j.company_handle WHERE c.handle = $1`: an inner join, so a company
with no jobs yields no rows. -/
def companyGetJoinRows (db : DB) (handle : String) : List (CompanyRow × JobRow) :=
  (db.companies.filter (fun c => c.handle == handle)).flatMap (fun c =>
    (db.jobs.filter (fun j => j.companyHandle == c.handle)).map (fun j => (c, j)))

/-- In JavaScript every object — an empty array included — is truthy, so
`!company` on the array produced by `.map` is always `false`. -/
def jsArrayFalsy {α : Type} (_ : List α) : Bool := false

/-- `Company.get(handle)` from models/company.js: maps the join rows and then
runs the dead `if (!company) throw new NotFoundError(...)` check. -/
def companyGet (db : DB) (handle : String) : Except JSErr (List CompanyGetRow) :=
  let company := (companyGetJoinRows db handle).map (fun cj =>
    { name := cj.1.name
      description := cj.1.description
      num_employees := cj.1.numEmployees
      logo_url := cj.1.logoUrl
      jobs := { id := cj.2.id, title := cj.2.title,
                salary := cj.2.salary, equity := cj.2.equity } })
  if jsArrayFalsy company then .error (.notFound ("No company: " ++ handle))
  else .ok company

/-- `Job.get(title)` from models/job.js: `rows[0]` of a plain select, with a
live not-found check. -/
def jobGet (db : DB) (title : String) : Except JSErr JobRow :=
  match (db.jobs.filter (fun j => j.title == title)).head? with
  | some j => .ok j
  | none => .error (.notFound ("No job: " ++ title))

/-- `Company.remove(handle)`: `DELETE FROM companies WHERE handle = $1
RETURNING handle`; throws `NotFoundError` when no row came back.  The new
store state is returned explicitly. -/
def companyRemove (db : DB) (handle : String) : Except JSErr DB :=
  let returned := db.companies.filter (fun c => c.handle == handle)
  match returned.head? with
  | some _ => .ok { db with companies := db.companies.filter (fun c => !(c.handle == handle)) }
  | none => .error (.notFound ("No company: " ++ handle))

/-- `Job.remove(title)`: when no row came back the source evaluates
`` new NotFoundError(`No company: ${handle}`) `` — but `handle` is not a
declared identifier in `Job.remove`, so strict-mode JavaScript raises a
`ReferenceError` instead. -/
def jobRemove (db : DB) (title : String) : Except JSErr DB :=
  let returned := db.jobs.filter (fun j => j.title == title)
  match returned.head? with
  | some _ => .ok { db with jobs := db.jobs.filter (fun j => !(j.title == title)) }
  | none => .error (.refError "handle")

/-- The UPDATE statement `Job.update(title, data)` assembles — note the
template literal targets the `companies` table. -/
def jobUpdateQuery (title : String) (data : List (String × JSVal)) :
    Except JSErr Query :=
  match sqlForPartialUpdate data [("salary", "salary"), ("equity", "equity")] with
  | .error e => .error e
  | .ok r =>
      let titleVarIdx := "$" ++ Nat.repr (r.values.length + 1)
      .ok ⟨"UPDATE companies \n                      SET " ++ r.setCols
            ++ " \n                      WHERE title = " ++ titleVarIdx
            ++ " \n                      RETURNING title, \n                                salary, \n                                equity ",
          r.values ++ [.str title]⟩

/-- Split a character list into runs separated by spaces and newlines. -/
def wordSplit (l : List Char) : List (List Char) :=
  l.foldr
    (fun c acc =>
      if c == ' ' || c == '\n' then [] :: acc
      else (c :: acc.headD []) :: acc.drop 1)
    [[]]

/-- The table a SQL statement of the form `UPDATE <table> ...` targets:
its second whitespace-separated word. -/
def sqlTargetTable (s : String) : String :=
  String.mk ((((wordSplit s.data).filter (fun w => !(w.isEmpty))).drop 1).headD [])

/-! ### Statement vocabulary: substring test and placeholder scanner -/

/-- Does the first list start with the second? -/
def listStarts : List Char → List Char → Bool
  | _, [] => true
  | [], _ :: _ => false
  | a :: as, b :: bs => b == a && listStarts as bs

/-- Does `needle` occur as a contiguous sublist? -/
def listOccurs (needle : List Char) : List Char → Bool
  | [] => listStarts [] needle
  | c :: rest => listStarts (c :: rest) needle || listOccurs needle rest

/-- Does `needle` occur as a contiguous substring of `s`? -/
def strOccurs (needle s : String) : Bool := listOccurs needle.data s.data

/-- Placeholder-scanner state transition.  The state is `none` outside a
placeholder and `some ds` once a `$` has been read, `ds` being the digit
characters read since that `$`. -/
def phStep : Option (List Char) × List (List Char) → Char →
    Option (List Char) × List (List Char)
  | (none, out), c => (if c == '$' then some [] else none, out)
  | (some ds, out), c =>
      if c.isDigit then (some (ds ++ [c]), out)
      else (if c == '$' then some [] else none,
            if ds.isEmpty then out else out ++ [ds])

/-- Close a pending digit run at end of input. -/
def phFinish : Option (List Char) × List (List Char) → List (List Char)
  | (some ds, out) => if ds.isEmpty then out else out ++ [ds]
  | (none, out) => out

/-- The positional-placeholder tokens of a SQL string: the maximal nonempty
digit runs immediately following a `$`, in textual order. -/
def placeholderTokens (s : String) : List String :=
  (phFinish (s.data.foldl phStep (none, []))).map (fun ds => String.mk ds)

/-! ## Theorems -/

/-- C1: the spec says a missing company handle makes `Company.get` fail with
`NotFound`.  The code maps the join rows into an array and tests `!company`,
which is false for every JavaScript array, so the lookup never fails: on an
empty store `get("nope")` returns `[]`, and even a present company with no
jobs (the inner join yields zero rows) also returns `[]`. -/
theorem c1_company_get_missing_handle_returns_ok :
    companyGet ⟨[], []⟩ "nope" = .ok []
      ∧ companyGet ⟨[⟨"c2", "C2", "Desc2", .num 2, .str "http"⟩], []⟩ "c2" = .ok [] := by
  constructor <;> rfl

/-- C2: the spec says `Job.update` modifies only the jobs record and no
companies record.  The UPDATE statement the code assembles for
`update("t1", {salary: 5})` targets the `companies` table, not `jobs`. -/
theorem c2_job_update_targets_companies_table :
    (jobUpdateQuery "t1" [("salary", JSVal.num 5)]).map (fun q => sqlTargetTable q.sql)
        = .ok "companies"
      ∧ ("companies" = "jobs") = False := by
  refine ⟨by decide, by simp⟩

/-- C3: the spec says adjacent SQL tokens in the assembled `findAll` string
are whitespace-separated.  The code appends `WHERE ...`, `AND ...` (companies)
and `ORDER BY ...` fragments with no separating whitespace: with no filters the
companies SQL contains `companiesORDER BY name` and the jobs SQL contains
`jobsORDER BY title`; with filters the companies SQL glues
`companiesWHERE name ILIKE` and `$1AND num_employees`. -/
theorem c3_findall_sql_tokens_not_whitespace_separated :
    (companyFindAllQuery []).map (fun q => strOccurs "companiesORDER BY name" q.sql)
        = .ok true
      ∧ (jobFindAllQuery []).map (fun q => strOccurs "jobsORDER BY title" q.sql)
        = .ok true
      ∧ (companyFindAllQuery [("name", JSVal.str "net")]).map
          (fun q => strOccurs "companiesWHERE name ILIKE" q.sql) = .ok true
      ∧ (companyFindAllQuery [("name", JSVal.str "net"), ("minEmployees", JSVal.num 5)]).map
          (fun q => strOccurs "$1AND num_employees" q.sql) = .ok true := by
  refine ⟨by decide, by decide, by decide, by decide⟩

/-- C4: the spec says that with both bounds present the clause constrains
`num_employees` to be `<=` the maximum.  For `{minEmployees: 50,
maxEmployees: 100}` the code emits `AND num_employees >=$2` — the maximum
bound is compared with `>=`, and no `<=` appears anywhere in the SQL — though
it does bind exactly `[50, 100]` in that order. -/
theorem c4_max_employees_clause_uses_gte :
    (companyFindAllQuery [("minEmployees", JSVal.num 50), ("maxEmployees", JSVal.num 100)]).map
        (fun q => (q.values, strOccurs "AND num_employees >=$2" q.sql, strOccurs "<=" q.sql))
      = .ok ([JSVal.num 50, JSVal.num 100], true, false) := by
  decide

/-- C5: the spec says `remove` on a nonexistent key fails with `NotFound`
specifically, and a `get` after a successful `remove` fails with `NotFound`.
`Job.remove` on a missing title evaluates `` `No company: ${handle}` `` where
`handle` is not a declared identifier, so strict-mode JavaScript raises a
`ReferenceError` instead; and after `Company.remove("c1")` succeeds,
`Company.get("c1")` returns `[]` rather than failing with `NotFound`. -/
theorem c5_job_remove_missing_key_reference_error :
    jobRemove ⟨[], []⟩ "nope" = .error (.refError "handle")
      ∧ companyRemove ⟨[⟨"c1", "C1", "Desc1", .num 1, .null⟩], []⟩ "c1" = .ok ⟨[], []⟩
      ∧ companyGet ⟨[], []⟩ "c1" = .ok [] := by
  refine ⟨rfl, rfl, rfl⟩

/-- The invalid-filter list computed by `findAll` is nonempty exactly when
some key lies outside the allow-list. -/
theorem filter_invalid_pos (valid keys : List String) :
    (keys.filter (fun f => !(valid.contains f))).length > 0 ↔ ∃ k ∈ keys, k ∉ valid := by
  rw [gt_iff_lt, List.length_pos]
  constructor
  · intro h
    obtain ⟨k, hk⟩ := List.exists_mem_of_ne_nil _ h
    rw [List.mem_filter] at hk
    refine ⟨k, hk.1, ?_⟩
    simpa [List.contains] using hk.2
  · rintro ⟨k, hk1, hk2⟩ hnil
    have := List.filter_eq_nil_iff.mp hnil k hk1
    simp [List.contains] at this
    exact hk2 this

/-- C8: `findAll` fails with the invalid-filter client error (`ExpressError`
with message `Invalid filter option` and status 400) if and only if some
option key lies outside the entity's allow-list; a key set inside the
allow-list is never rejected with that error. -/
theorem c8_invalid_filter_iff_key_outside_allowlist :
    (∀ options : List (String × JSVal),
        companyFindAllQuery options = .error (.express "Invalid filter option" 400)
          ↔ ∃ k ∈ options.map Prod.fst, k ∉ companyValidFilters)
      ∧ (∀ options : List (String × JSVal),
        jobFindAllQuery options = .error (.express "Invalid filter option" 400)
          ↔ ∃ k ∈ options.map Prod.fst, k ∉ jobValidFilters) := by
  constructor
  · intro options
    by_cases h : ((options.map Prod.fst).filter
        (fun f => !(companyValidFilters.contains f))).length > 0
    · simp only [companyFindAllQuery, if_pos h]
      exact ⟨fun _ => (filter_invalid_pos _ _).mp h, fun _ => trivial⟩
    · simp only [companyFindAllQuery, if_neg h]
      constructor
      · intro heq
        by_cases hg : jsGt (getProp options "minEmployees") (getProp options "maxEmployees")
          = true
        · rw [if_pos hg] at heq
          exact absurd heq (by decide)
        · rw [if_neg hg] at heq
          exact absurd heq (by simp)
      · intro hex
        exact absurd ((filter_invalid_pos _ _).mpr hex) h
  · intro options
    by_cases h : ((options.map Prod.fst).filter
        (fun f => !(jobValidFilters.contains f))).length > 0
    · simp only [jobFindAllQuery, if_pos h]
      exact ⟨fun _ => (filter_invalid_pos _ _).mp h, fun _ => trivial⟩
    · simp only [jobFindAllQuery, if_neg h]
      constructor
      · intro heq
        exact absurd heq (by simp)
      · intro hex
        exact absurd ((filter_invalid_pos _ _).mpr hex) h

/-- C8 witness: a mapping with the unknown key `foo` is rejected with the
invalid-filter error. -/
theorem c8_witness_foo_key_rejected :
    companyFindAllQuery [("foo", JSVal.num 1)]
      = .error (.express "Invalid filter option" 400) :=
  (c8_invalid_filter_iff_key_outside_allowlist.1 [("foo", JSVal.num 1)]).mpr
    ⟨"foo", by decide, by decide⟩

/-- C9 counterexample: a mapping that contains both bounds with
`minEmployees > maxEmployees` *and* an unrecognized key fails with the
invalid-filter error, not the filter-conflict error the claim names. -/
theorem c9_extra_key_masks_conflict :
    companyFindAllQuery
        [("minEmployees", JSVal.num 100), ("maxEmployees", JSVal.num 50), ("foo", JSVal.num 1)]
      = .error (.express "Invalid filter option" 400)
      ∧ (JSErr.express "Invalid filter option" 400
          = JSErr.express "Employee filter conflict" 400) = False := by
  refine ⟨by decide, eq_false (by decide)⟩

/-- C9 (amended): for every companies option mapping whose keys all lie in
the allow-list and which carries numeric `minEmployees > maxEmployees`,
`Company.findAll` fails with the filter-conflict client error (400); and on
every validation failure no query is submitted to the store. -/
theorem c9_conflict_fails_before_store :
    (∀ (options : List (String × JSVal)) (a b : Int),
        (∀ k ∈ options.map Prod.fst, k ∈ companyValidFilters) →
        getProp options "minEmployees" = .num a →
        getProp options "maxEmployees" = .num b →
        b < a →
        companyFindAllQuery options = .error (.express "Employee filter conflict" 400))
      ∧ (∀ (options : List (String × JSVal)) (e : JSErr),
        companyFindAllQuery options = .error e → companyFindAllExecuted options = []) := by
  constructor
  · intro options a b hkeys hmin hmax hab
    have h : ¬ ((options.map Prod.fst).filter
        (fun f => !(companyValidFilters.contains f))).length > 0 := by
      intro hpos
      obtain ⟨k, hk1, hk2⟩ := (filter_invalid_pos _ _).mp hpos
      exact hk2 (hkeys k hk1)
    simp only [companyFindAllQuery, if_neg h, hmin, hmax]
    have hg : jsGt (JSVal.num a) (JSVal.num b) = true := by
      simp [jsGt, toNumber, hab]
    rw [if_pos hg]
  · intro options e he
    simp only [companyFindAllExecuted, he]

/-- C9 witness: `{minEmployees: 100, maxEmployees: 50}` fails with the
filter-conflict error. -/
theorem c9_witness_conflict :
    companyFindAllQuery [("minEmployees", JSVal.num 100), ("maxEmployees", JSVal.num 50)]
      = .error (.express "Employee filter conflict" 400) :=
  c9_conflict_fails_before_store.1
    [("minEmployees", JSVal.num 100), ("maxEmployees", JSVal.num 50)] 100 50
    (by decide) (by decide) (by decide) (by decide)

/-- C10: with `hasEquity` present and equal to `false`, `Job.findAll` appends
an active `equity = 0` fragment binding no value; with `true` the fragment is
`equity > 0`, likewise binding no value — the bound values are exactly those
contributed by the `title` and `minSalary` filters. -/
theorem c10_has_equity_false_is_active_filter :
    ∀ (options : List (String × JSVal)) (b : Bool) (q : Query),
      (∀ k ∈ options.map Prod.fst, k ∈ jobValidFilters) →
      getProp options "hasEquity" = .bool b →
      jobFindAllQuery options = .ok q →
      strOccurs (if b then " equity > 0" else " equity = 0") q.sql = true
        ∧ q.values.length =
            (if jsTruthy (getProp options "title") then 1 else 0)
              + (if jsTruthy (getProp options "minSalary") then 1 else 0) := by
  intro options b q hkeys hE hok
  have h : ¬ ((options.map Prod.fst).filter
      (fun f => !(jobValidFilters.contains f))).length > 0 := by
    intro hpos
    obtain ⟨k, hk1, hk2⟩ := (filter_invalid_pos _ _).mp hpos
    exact hk2 (hkeys k hk1)
  simp only [jobFindAllQuery, if_neg h, Except.ok.injEq] at hok
  subst hok
  simp only [jobStates, hE]
  cases ht : jsTruthy (getProp options "title") <;>
    cases hm : jsTruthy (getProp options "minSalary") <;>
      cases b <;>
        simp [ht, hm, jsTruthy] <;> decide

/-- C10 witness: `{hasEquity: false}` alone yields the glued
`... FROM jobs WHERE equity = 0ORDER BY title` statement with no bind
values. -/
theorem c10_witness_has_equity_false :
    strOccurs (if false then " equity > 0" else " equity = 0")
        (Query.mk "SELECT title,\n                      salary,\n                      equity,\n                      company_handle AS \"companyHandle\"\n               FROM jobs WHERE equity = 0ORDER BY title" []).sql = true
      ∧ (Query.mk "SELECT title,\n                      salary,\n                      equity,\n                      company_handle AS \"companyHandle\"\n               FROM jobs WHERE equity = 0ORDER BY title" []).values.length =
          (if jsTruthy (getProp [("hasEquity", JSVal.bool false)] "title") then 1 else 0)
            + (if jsTruthy (getProp [("hasEquity", JSVal.bool false)] "minSalary") then 1 else 0) :=
  c10_has_equity_false_is_active_filter [("hasEquity", JSVal.bool false)] false
    ⟨"SELECT title,\n                      salary,\n                      equity,\n                      company_handle AS \"companyHandle\"\n               FROM jobs WHERE equity = 0ORDER BY title", []⟩
    (by decide) (by decide) (by decide)

theorem colFragments_length (m : List (String × String)) :
    ∀ (ks : List String) (idx : Nat), (colFragments m ks idx).length = ks.length := by
  intro ks
  induction ks with
  | nil => intro idx; rfl
  | cons k rest ih => intro idx; simp [colFragments, ih]

theorem colFragments_get (m : List (String × String)) :
    ∀ (ks : List String) (idx i : Nat) (hi : i < (colFragments m ks idx).length),
      (colFragments m ks idx).get ⟨i, hi⟩
        = "\"" ++ resolveCol m (ks.getD i "") ++ "\"=$" ++ Nat.repr (idx + i + 1) := by
  intro ks
  induction ks with
  | nil => intro idx i hi; simp [colFragments] at hi
  | cons k rest ih =>
    intro idx i hi
    cases i with
    | zero => simp [colFragments]
    | succ n =>
      have hrec := ih (idx + 1) n (by simpa [colFragments] using hi)
      simpa [colFragments, Nat.add_assoc, Nat.add_comm, Nat.add_left_comm] using hrec

/-- C6 counterexample: with the alias table `{x: ""}` an alias *is* present
for `x`, yet the fragment uses the field name `x`, not the alias `""` —
JavaScript `jsToSql[colName] || colName` falls back on any falsy alias. -/
theorem c6_empty_alias_falls_back_to_key :
    sqlForPartialUpdate [("x", JSVal.num 1)] [("x", "")]
        = .ok ⟨["\"x\"=$1"], "\"x\"=$1", [JSVal.num 1]⟩
      ∧ ("\"x\"=$1" = "\"\"=$1") = False := by
  refine ⟨by decide, eq_false (by decide)⟩

/-- C6 (amended): for every non-empty field mapping and alias table,
`sqlForPartialUpdate` produces as many assignment fragments as fields and
exactly as many bind values, in the same key order; the Nth fragment's
placeholder index is N; and each fragment's column name is the alias for that
key when a non-empty alias is present, otherwise the key itself
(`resolveCol`).  The spec's concrete scenario is reproduced verbatim. -/
theorem c6_update_builder_shape :
    (∀ (dataToUpdate : List (String × JSVal)) (jsToSql : List (String × String))
        (r : UpdateResult),
      dataToUpdate ≠ [] →
      sqlForPartialUpdate dataToUpdate jsToSql = .ok r →
      r.cols.length = dataToUpdate.length
        ∧ r.values = dataToUpdate.map Prod.snd
        ∧ r.setCols = joinComma r.cols
        ∧ ∀ (i : Nat) (hi : i < r.cols.length),
            r.cols.get ⟨i, hi⟩
              = "\"" ++ resolveCol jsToSql ((dataToUpdate.map Prod.fst).getD i "")
                  ++ "\"=$" ++ Nat.repr (i + 1))
      ∧ sqlForPartialUpdate
          [("firstName", JSVal.str "Aliya"), ("age", JSVal.num 32)]
          [("firstName", "first_name")]
        = .ok ⟨["\"first_name\"=$1", "\"age\"=$2"],
               "\"first_name\"=$1, \"age\"=$2",
               [JSVal.str "Aliya", JSVal.num 32]⟩ := by
  constructor
  · intro dataToUpdate jsToSql r hne hok
    have hlen : ((dataToUpdate.map Prod.fst).length == 0) = false := by
      simp [List.length_eq_zero, hne]
    simp only [sqlForPartialUpdate, hlen, Bool.false_eq_true, if_false,
      Except.ok.injEq] at hok
    subst hok
    refine ⟨by simp [colFragments_length], rfl, rfl, ?_⟩
    intro i hi
    have := colFragments_get jsToSql (dataToUpdate.map Prod.fst) 0 i hi
    simpa [Nat.zero_add] using this
  · decide

/-- C6 witness: the fragment/value counts agree on the spec's concrete
scenario. -/
theorem c6_witness_aliya :
    (UpdateResult.mk ["\"first_name\"=$1", "\"age\"=$2"]
        "\"first_name\"=$1, \"age\"=$2" [JSVal.str "Aliya", JSVal.num 32]).cols.length
      = ([("firstName", JSVal.str "Aliya"), ("age", JSVal.num 32)] : List (String × JSVal)).length :=
  (c6_update_builder_shape.1
    [("firstName", JSVal.str "Aliya"), ("age", JSVal.num 32)]
    [("firstName", "first_name")]
    ⟨["\"first_name\"=$1", "\"age\"=$2"], "\"first_name\"=$1, \"age\"=$2",
     [JSVal.str "Aliya", JSVal.num 32]⟩
    (by decide) (by decide)).1

/-! ### Decimal digits of `Nat.repr` -/

theorem digitChar_isDigit {n : Nat} (h : n < 10) : (Nat.digitChar n).isDigit = true := by
  interval_cases n <;> decide

theorem toDigitsCore_all_digits :
    ∀ (fuel n : Nat) (ds : List Char), (∀ c ∈ ds, c.isDigit = true) →
      ∀ c ∈ Nat.toDigitsCore 10 fuel n ds, c.isDigit = true := by
  intro fuel
  induction fuel with
  | zero =>
    intro n ds hds c hc
    exact hds c hc
  | succ fuel ih =>
    intro n ds hds c hc
    have hd : (Nat.digitChar (n % 10)).isDigit = true :=
      digitChar_isDigit (Nat.mod_lt _ (by decide))
    simp only [Nat.toDigitsCore] at hc
    by_cases h : n / 10 = 0
    · rw [if_pos h] at hc
      rcases List.mem_cons.mp hc with rfl | hmem
      · exact hd
      · exact hds c hmem
    · rw [if_neg h] at hc
      refine ih (n / 10) _ ?_ c hc
      intro c2 hc2
      rcases List.mem_cons.mp hc2 with rfl | hmem
      · exact hd
      · exact hds c2 hmem

theorem repr_data_all_digits (n : Nat) : ∀ c ∈ (Nat.repr n).data, c.isDigit = true := by
  intro c hc
  exact toDigitsCore_all_digits (n + 1) n [] (by simp) c hc

theorem toDigitsCore_ne_nil :
    ∀ (fuel n : Nat) (ds : List Char), ds ≠ [] → Nat.toDigitsCore 10 fuel n ds ≠ [] := by
  intro fuel
  induction fuel with
  | zero => intro n ds h; exact h
  | succ fuel ih =>
    intro n ds h
    simp only [Nat.toDigitsCore]
    by_cases h10 : n / 10 = 0
    · rw [if_pos h10]; exact List.cons_ne_nil _ _
    · rw [if_neg h10]; exact ih (n / 10) _ (List.cons_ne_nil _ _)

theorem repr_data_ne_nil (n : Nat) : (Nat.repr n).data ≠ [] := by
  show Nat.toDigitsCore 10 (n + 1) n [] ≠ []
  simp only [Nat.toDigitsCore]
  by_cases h10 : n / 10 = 0
  · rw [if_pos h10]; exact List.cons_ne_nil _ _
  · rw [if_neg h10]; exact toDigitsCore_ne_nil n (n / 10) _ (List.cons_ne_nil _ _)

theorem digit_ne_dollar {c : Char} (h : c.isDigit = true) : (c == '$') = false := by
  rcases hc : c == '$' with _ | _
  · rfl
  · have : c = '$' := by
      have := hc
      simpa [beq_iff_eq] using hc
    subst this
    exact absurd h (by decide)

/-! ### Scanner composition lemmas -/

theorem foldl_phStep_no_dollar :
    ∀ (a : List Char) (out : List (List Char)), (∀ c ∈ a, (c == '$') = false) →
      a.foldl phStep (none, out) = (none, out) := by
  intro a
  induction a with
  | nil => intro out _; rfl
  | cons c rest ih =>
    intro out h
    have hc : (c == '$') = false := h c (List.mem_cons_self c rest)
    have hstep : phStep (none, out) c = (none, out) := by
      simp [phStep, hc]
    rw [List.foldl_cons, hstep]
    exact ih out (fun c2 hc2 => h c2 (List.mem_cons_of_mem c hc2))

theorem foldl_phStep_digits :
    ∀ (a : List Char), (∀ c ∈ a, c.isDigit = true) →
      ∀ (ds : List Char) (out : List (List Char)),
        a.foldl phStep (some ds, out) = (some (ds ++ a), out) := by
  intro a
  induction a with
  | nil => intro _ ds out; simp
  | cons c rest ih =>
    intro h ds out
    have hc : c.isDigit = true := h c (List.mem_cons_self c rest)
    have hstep : phStep (some ds, out) c = (some (ds ++ [c]), out) := by
      simp [phStep, hc]
    rw [List.foldl_cons, hstep,
      ih (fun c2 hc2 => h c2 (List.mem_cons_of_mem c hc2)) (ds ++ [c]) out]
    simp

theorem foldl_phStep_fragment (name : String) (k : Nat) (out : List (List Char))
    (hname : ∀ c ∈ name.data, (c == '$') = false) :
    ("\"" ++ name ++ "\"=$" ++ Nat.repr k).data.foldl phStep (none, out)
      = (some (Nat.repr k).data, out) := by
  have hdata : ("\"" ++ name ++ "\"=$" ++ Nat.repr k).data
      = ['\"'] ++ name.data ++ ['\"', '='] ++ ('$' :: (Nat.repr k).data) := by
    simp [String.data_append]
  rw [hdata, List.foldl_append, List.foldl_append, List.foldl_append]
  have h1 : (['\"'] : List Char).foldl phStep (none, out) = (none, out) := rfl
  rw [h1, foldl_phStep_no_dollar name.data out hname]
  have h2 : (['\"', '='] : List Char).foldl phStep (none, out) = (none, out) := rfl
  rw [h2, List.foldl_cons]
  have h3 : phStep (none, out) '$' = (some [], out) := rfl
  rw [h3, foldl_phStep_digits (Nat.repr k).data (repr_data_all_digits k) [] out]
  simp

theorem foldl_phStep_comma_space (ds : List Char) (out : List (List Char)) (h : ds ≠ []) :
    (", ").data.foldl phStep (some ds, out) = (none, out ++ [ds]) := by
  have hdata : (", ").data = [',', ' '] := rfl
  have hne : ds.isEmpty = false := by
    cases ds with
    | nil => exact absurd rfl h
    | cons a l => rfl
  rw [hdata, List.foldl_cons, List.foldl_cons]
  have h1 : phStep (some ds, out) ',' = (none, out ++ [ds]) := by
    simp [phStep, hne]
  rw [h1]
  rfl

theorem foldl_phStep_joined (m : List (String × String)) :
    ∀ (ks : List String) (idx : Nat) (out : List (List Char)),
      ks ≠ [] →
      (∀ k ∈ ks, ∀ c ∈ (resolveCol m k).data, (c == '$') = false) →
      (joinComma (colFragments m ks idx)).data.foldl phStep (none, out)
        = (some (Nat.repr (idx + ks.length)).data,
           out ++ (List.range' (idx + 1) (ks.length - 1)).map (fun n => (Nat.repr n).data)) := by
  intro ks
  induction ks with
  | nil => intro idx out h _; exact absurd rfl h
  | cons k rest ih =>
    intro idx out _ hnames
    cases rest with
    | nil =>
      have hj : joinComma (colFragments m [k] idx)
          = "\"" ++ resolveCol m k ++ "\"=$" ++ Nat.repr (idx + 1) := rfl
      rw [hj, foldl_phStep_fragment _ _ _ (hnames k (List.mem_cons_self k []))]
      simp
    | cons k2 rest2 =>
      have hj : joinComma (colFragments m (k :: k2 :: rest2) idx)
          = ("\"" ++ resolveCol m k ++ "\"=$" ++ Nat.repr (idx + 1)) ++ ", "
              ++ joinComma (colFragments m (k2 :: rest2) (idx + 1)) := rfl
      rw [hj, String.data_append, String.data_append, List.foldl_append,
        List.foldl_append,
        foldl_phStep_fragment _ _ _ (hnames k (List.mem_cons_self k _)),
        foldl_phStep_comma_space _ _ (repr_data_ne_nil (idx + 1)),
        ih (idx + 1) (out ++ [(Nat.repr (idx + 1)).data]) (List.cons_ne_nil _ _)
          (fun k3 hk3 => hnames k3 (List.mem_cons_of_mem k hk3))]
      have h1 : idx + 1 + (k2 :: rest2).length = idx + (k :: k2 :: rest2).length := by
        simp only [List.length_cons]
        omega
      rw [h1]
      have h2 : List.range' (idx + 1) ((k :: k2 :: rest2).length - 1)
          = (idx + 1) :: List.range' (idx + 1 + 1) ((k2 :: rest2).length - 1) := by
        simp only [List.length_cons, Nat.add_sub_cancel]
        rw [List.range'_succ]
      rw [h2]
      simp

theorem stringMk_repr (n : Nat) : String.mk (Nat.repr n).data = Nat.repr n := rfl

theorem placeholderTokens_setCols (m : List (String × String)) (ks : List String)
    (hne : ks ≠ [])
    (hnames : ∀ k ∈ ks, ∀ c ∈ (resolveCol m k).data, (c == '$') = false) :
    placeholderTokens (joinComma (colFragments m ks 0))
      = (List.range' 1 ks.length).map Nat.repr := by
  unfold placeholderTokens
  rw [foldl_phStep_joined m ks 0 [] hne hnames]
  simp only [Nat.zero_add]
  have hfinne : ((Nat.repr ks.length).data).isEmpty = false := by
    cases hd : (Nat.repr ks.length).data with
    | nil => exact absurd hd (repr_data_ne_nil _)
    | cons a l => rfl
  have hfin : phFinish (some (Nat.repr ks.length).data,
      [] ++ (List.range' 1 (ks.length - 1)).map (fun n => (Nat.repr n).data))
      = (List.range' 1 (ks.length - 1)).map (fun n => (Nat.repr n).data)
          ++ [(Nat.repr ks.length).data] := by
    simp [phFinish, hfinne]
  rw [hfin]
  obtain ⟨n, hn⟩ : ∃ n, ks.length = n + 1 := by
    cases ks with
    | nil => exact absurd rfl hne
    | cons a l => exact ⟨l.length, by simp⟩
  rw [hn]
  have hcat : List.range' 1 (n + 1) = List.range' 1 n ++ [1 + n] :=
    List.range'_1_concat 1 n
  rw [hcat]
  simp [List.map_map, Function.comp, stringMk_repr, Nat.add_comm, Nat.add_sub_cancel]

theorem resolveCol_no_dollar (m : List (String × String)) (k : String)
    (hk : ∀ c ∈ k.data, (c == '$') = false)
    (hm : ∀ p ∈ m, ∀ c ∈ p.2.data, (c == '$') = false) :
    ∀ c ∈ (resolveCol m k).data, (c == '$') = false := by
  unfold resolveCol aliasLookup
  cases hfind : m.find? (fun p => p.1 == k) with
  | none => simpa using hk
  | some p =>
    have hp : p ∈ m := List.mem_of_find?_eq_some hfind
    by_cases hempty : (p.2 == "") = true
    · simpa [hempty] using hk
    · simpa [hempty] using hm p hp

theorem companyStates_placeholders (options : List (String × JSVal)) :
    ∀ q ∈ companyStates options,
      placeholderTokens q.sql = (List.range' 1 q.values.length).map Nat.repr := by
  intro q hq
  simp only [companyStates] at hq
  cases h1 : jsTruthy (getProp options "name") <;>
    cases h2 : jsTruthy (getProp options "minEmployees") <;>
      cases h3 : jsTruthy (getProp options "maxEmployees") <;>
        simp only [h1, h2, h3, Bool.false_eq_true, if_false, if_true, List.mem_cons,
          List.not_mem_nil, or_false] at hq <;>
          rcases hq with rfl | rfl | rfl | rfl | rfl <;>
            simp only [List.length_append, List.length_cons, List.length_nil] <;>
              decide

theorem jobStates_placeholders (options : List (String × JSVal)) :
    ∀ q ∈ jobStates options,
      placeholderTokens q.sql = (List.range' 1 q.values.length).map Nat.repr := by
  intro q hq
  simp only [jobStates] at hq
  cases h1 : jsTruthy (getProp options "title") <;>
    cases h2 : jsTruthy (getProp options "minSalary") <;>
      cases h3 : getProp options "hasEquity" == JSVal.undefined <;>
        cases h4 : jsTruthy (getProp options "hasEquity") <;>
          simp only [h1, h2, h3, h4, Bool.false_eq_true, Bool.not_false, Bool.not_true,
            if_false, if_true, List.mem_cons, List.not_mem_nil, or_false] at hq <;>
            rcases hq with rfl | rfl | rfl | rfl | rfl <;>
              simp only [List.length_append, List.length_cons, List.length_nil] <;>
                decide

/-- C7: in every builder state of `Company.findAll` and `Job.findAll` — after
the base SELECT and after each incremental append — and in the `setCols`
string of `sqlForPartialUpdate` (for `$`-free field and column names, the
accepted trust boundary of §4.1), the placeholder tokens read off the clause
are exactly `$1 .. $n` in order, `n` being the current length of the
bind-value list; so every appended value-binding fragment used index
`len(values)+1` at construction time. -/
theorem c7_placeholder_value_alignment :
    (∀ (options : List (String × JSVal)) (q : Query), q ∈ companyStates options →
        placeholderTokens q.sql = (List.range' 1 q.values.length).map Nat.repr)
      ∧ (∀ (options : List (String × JSVal)) (q : Query), q ∈ jobStates options →
        placeholderTokens q.sql = (List.range' 1 q.values.length).map Nat.repr)
      ∧ (∀ (dataToUpdate : List (String × JSVal)) (jsToSql : List (String × String))
          (r : UpdateResult),
        (∀ k ∈ dataToUpdate.map Prod.fst, ∀ c ∈ k.data, (c == '$') = false) →
        (∀ p ∈ jsToSql, ∀ c ∈ p.2.data, (c == '$') = false) →
        sqlForPartialUpdate dataToUpdate jsToSql = .ok r →
        placeholderTokens r.setCols = (List.range' 1 r.values.length).map Nat.repr) := by
  refine ⟨companyStates_placeholders, jobStates_placeholders, ?_⟩
  intro dataToUpdate jsToSql r hkeys hm hok
  have hne : dataToUpdate ≠ [] := by
    intro hnil
    subst hnil
    simp [sqlForPartialUpdate] at hok
  have hlen : ((dataToUpdate.map Prod.fst).length == 0) = false := by
    simp [List.length_eq_zero, hne]
  simp only [sqlForPartialUpdate, hlen, Bool.false_eq_true, if_false,
    Except.ok.injEq] at hok
  subst hok
  have hksne : dataToUpdate.map Prod.fst ≠ [] := by
    simpa [List.map_eq_nil_iff] using hne
  have hnames : ∀ k ∈ dataToUpdate.map Prod.fst,
      ∀ c ∈ (resolveCol jsToSql k).data, (c == '$') = false :=
    fun k hk => resolveCol_no_dollar jsToSql k (hkeys k hk) hm
  have := placeholderTokens_setCols jsToSql (dataToUpdate.map Prod.fst) hksne hnames
  simpa [List.length_map] using this

/-- C7 witness: the final companies builder state for `{name: "net"}` carries
one bind value and exactly the token `$1`. -/
theorem c7_witness_name_filter :
    placeholderTokens
        (Query.mk "SELECT handle,\n                      name,\n                      description,\n                      num_employees AS \"numEmployees\",\n                      logo_url AS \"logoUrl\"\n               FROM companiesWHERE name ILIKE $1ORDER BY name"
          [JSVal.str "%net%"]).sql
      = (List.range' 1
          (Query.mk "SELECT handle,\n                      name,\n                      description,\n                      num_employees AS \"numEmployees\",\n                      logo_url AS \"logoUrl\"\n               FROM companiesWHERE name ILIKE $1ORDER BY name"
            [JSVal.str "%net%"]).values.length).map Nat.repr :=
  c7_placeholder_value_alignment.1 [("name", JSVal.str "net")]
    ⟨"SELECT handle,\n                      name,\n                      description,\n                      num_employees AS \"numEmployees\",\n                      logo_url AS \"logoUrl\"\n               FROM companiesWHERE name ILIKE $1ORDER BY name",
     [JSVal.str "%net%"]⟩
    (by decide)

end Jobly
